import Mathlib

/-
Verification development for the mathstro scheduler.

The definitions below are a shallow embedding of the Python sources:
  mathstro_scheduler/session.py, instructor_pref.py, scheduler.py.
Machine integers are modelled by Nat/Int, Python None by Option, and
Python exceptions by Except.  The process-global random shuffle of
preference indices is passed in explicitly as a list of indices.
-/

/-- Error cases of Session.remap_time_code / InstructorPref.remap_time_code
(both methods have identical bodies).  OutOfRangeTime and UnknownWeekday are
the two ValueError sites in the source; MalformedTime models the failures of
the tuple unpacking of time_code.split(" ") and of int(...). -/
inductive TimeCodeError
  | OutOfRangeTime
  | UnknownWeekday
  | MalformedTime
deriving DecidableEq

/-- The days_mapping dict of remap_time_code, with the .get(day, -1) default. -/
def days_mapping (d : String) : Int :=
  if d = "Monday" then 0
  else if d = "Tuesday" then 1
  else if d = "Wednesday" then 2
  else if d = "Thursday" then 3
  else if d = "Friday" then 4
  else if d = "Saturday" then 5
  else if d = "Sunday" then 6
  else -1

/-- The 24-hour conversion step of remap_time_code:
`if period == "PM" and hour != 12: hour += 12 elif period == "AM" and hour == 12: hour = 0`. -/
def to_24_hour (hour : Nat) (period : String) : Nat :=
  if period = "PM" ∧ hour ≠ 12 then hour + 12
  else if period = "AM" ∧ hour = 12 then 0
  else hour

/-- Python str.split with an explicit one-character separator, on the
character list of the string: splits at every occurrence of the separator,
keeping empty pieces.  The accumulator holds the current piece reversed. -/
def py_split_aux (sep : Char) : List Char → List Char → List (List Char)
  | [], acc => [acc.reverse]
  | x :: xs, acc =>
    if x = sep then acc.reverse :: py_split_aux sep xs []
    else py_split_aux sep xs (x :: acc)

/-- Python str.split(sep) for a one-character separator. -/
def py_split (sep : Char) (s : List Char) : List (List Char) :=
  py_split_aux sep s []

/-- Python str.strip(): drop whitespace from both ends. -/
def py_strip (s : List Char) : List Char :=
  ((s.dropWhile Char.isWhitespace).reverse.dropWhile Char.isWhitespace).reverse

/-- Python int(...) restricted to non-empty all-decimal-digit strings (the
only shape remap_time_code feeds it from well-formed "H:MM" tokens); other
inputs fail, as int(...) raises on them. -/
def py_int (s : List Char) : Option Nat :=
  if s ≠ [] ∧ s.all Char.isDigit then
    some (s.foldl (fun n c => 10 * n + (c.toNat - 48)) 0)
  else none

/-- Session.remap_time_code / InstructorPref.remap_time_code, up to (but not
including) the final string formatting: returns the (day_code, hour_code)
pair that the source interpolates into the string "day_hour".
hour, period = time_code.split(" ") and hour = int(hour.split(":")[0]) are
modelled on the character list; a split that does not yield exactly two
parts, or a non-numeric hour, is the MalformedTime failure. -/
def remap_time_code_parts (time_code week_day : String) : Except TimeCodeError (Int × Nat) :=
  match py_split ' ' time_code.data with
  | [hourChars, periodChars] =>
    let period := String.mk periodChars
    match py_int ((py_split ':' hourChars).headD []) with
    | none => .error .MalformedTime
    | some h =>
      let hour := to_24_hour h period
      if hour < 7 ∨ hour > 19 then .error .OutOfRangeTime
      else
        let hour_code := hour - 7
        let day_code := days_mapping (String.mk (py_strip week_day.data))
        if day_code = -1 then .error .UnknownWeekday
        else .ok (day_code, hour_code)
  | _ => .error .MalformedTime

/-- Session.remap_time_code / InstructorPref.remap_time_code: the encoded
slot string f"{day_code}_{hour_code}". -/
def remap_time_code (time_code week_day : String) : Except TimeCodeError String :=
  (remap_time_code_parts time_code week_day).map
    (fun p => toString p.1 ++ "_" ++ toString p.2)

instance {ε α : Type} [DecidableEq ε] [DecidableEq α] : DecidableEq (Except ε α) :=
  fun a b =>
    match a, b with
    | .ok x, .ok y => decidable_of_iff (x = y) (by simp)
    | .error x, .error y => decidable_of_iff (x = y) (by simp)
    | .ok _, .error _ => .isFalse (by simp)
    | .error _, .ok _ => .isFalse (by simp)


/-- session.Session: week_day, start_time_code, end_time_code are the raw
constructor arguments; encoded_start_time_code is the slot string computed
in the constructor via remap_time_code(start_time_code, week_day). -/
structure Session where
  week_day : String
  start_time_code : String
  end_time_code : String
  encoded_start_time_code : String
deriving DecidableEq, Inhabited

/-- instructor_pref.InstructorPref: uid, name, week_day, start_time_code,
end_time_code are the raw constructor arguments; encoded_start_time_code is
computed in the constructor via remap_time_code(start_time_code, week_day). -/
structure InstructorPref where
  uid : String
  name : String
  week_day : String
  start_time_code : String
  end_time_code : String
  encoded_start_time_code : String
deriving DecidableEq, Inhabited

/-- The Session constructor: derives encoded_start_time_code from the start
time and week day, propagating the remap_time_code failure. -/
def Session.make (week_day start_time_code end_time_code : String) :
    Except TimeCodeError Session :=
  (remap_time_code start_time_code week_day).map
    (fun code => ⟨week_day, start_time_code, end_time_code, code⟩)

/-- The InstructorPref constructor: derives encoded_start_time_code from the
start time and week day, propagating the remap_time_code failure. -/
def InstructorPref.make (uid name week_day start_time_code end_time_code : String) :
    Except TimeCodeError InstructorPref :=
  (remap_time_code start_time_code week_day).map
    (fun code => ⟨uid, name, week_day, start_time_code, end_time_code, code⟩)

/-- Fallback value used to model Python list indexing
list_of_instructor_prefs[idx].  The scheduler only ever indexes with
in-range indices (the shuffled indices come from range(len(prefs))), so the
fallback is unreachable in the modelled runs. -/
def dummy_pref : InstructorPref := ⟨"", "", "", "", "", ""⟩

/-- Fallback value used to model Python list indexing list_of_session[idx]. -/
def dummy_session : Session := ⟨"", "", "", ""⟩

/-- scheduler.try_assign_instructor: returns instructor_pref.uid when the
encoded slot codes are equal, and Python None (here Option.none) otherwise. -/
def try_assign_instructor (instructor_pref : InstructorPref) (session : Session) :
    Option String :=
  if instructor_pref.encoded_start_time_code = session.encoded_start_time_code then
    some instructor_pref.uid
  else none

/-- Python truthiness of the str-or-None value returned by
try_assign_instructor: None and the empty string are falsy. -/
def is_truthy : Option String → Bool
  | none => false
  | some s => s != ""

/-- The inner loop of scheduler.calculate_session_assignments: scan the
shuffled preference indices and return the first idx whose preference
matches the session (truthy try_assign_instructor result) and is not already
in session_assignments; None when the scan is exhausted (_assigned stays
False). -/
def assign_scan (prefs : List InstructorPref) (session : Session) :
    List Nat → List (Option Nat) → Option Nat
  | [], _ => none
  | idx :: rest, session_assignments =>
    let instructor_pref := prefs.getD idx dummy_pref
    let success := try_assign_instructor instructor_pref session
    if is_truthy success ∧ some idx ∉ session_assignments then some idx
    else assign_scan prefs session rest session_assignments

/-- The outer loop of scheduler.calculate_session_assignments: for each
session, append the scan result (an index or None) to session_assignments. -/
def calc_go (prefs : List InstructorPref) (perm : List Nat) :
    List Session → List (Option Nat) → List (Option Nat)
  | [], session_assignments => session_assignments
  | session :: rest, session_assignments =>
    calc_go prefs perm rest
      (session_assignments ++ [assign_scan prefs session perm session_assignments])

/-- scheduler.calculate_session_assignments.  The random.shuffle of the
preference index list is modelled by taking the shuffled index list perm as
an argument; replicates is accepted (as in the source signature) and unused.
The session_assignments accumulator starts empty on every call. -/
def calculate_session_assignments (list_of_session : List Session)
    (list_of_instructor_prefs : List InstructorPref) (replicates : Nat)
    (perm : List Nat) : List (Option Nat) :=
  calc_go list_of_instructor_prefs perm list_of_session []

/-- The scoring loop of scheduler.update_best_session_assignment, written
with the previous candidate entry passed along: position 0 has no previous
entry, which contributes 0 exactly as the idx > 0 guard does in the source.
An unfilled position costs 5; a filled position whose previous position is
filled by a preference with the same uid and the same week_day gains 2. -/
def score_go (prefs : List InstructorPref) : Option Nat → List (Option Nat) → Int
  | _, [] => 0
  | prev, entry :: rest =>
    (match entry, prev with
     | none, _ => (-5 : Int)
     | some instructor_idx, none => 0
     | some instructor_idx, some prev_idx =>
       let prev_instructor_pref := prefs.getD prev_idx dummy_pref
       let curr_instructor_pref := prefs.getD instructor_idx dummy_pref
       if curr_instructor_pref.uid = prev_instructor_pref.uid ∧
          curr_instructor_pref.week_day = prev_instructor_pref.week_day then 2
       else 0)
    + score_go prefs entry rest

/-- The score computed by scheduler.update_best_session_assignment for one
candidate. -/
def candidate_score (prefs : List InstructorPref) (cand : List (Option Nat)) : Int :=
  score_go prefs none cand

/-- Number of unfilled (None) positions of a candidate. -/
def unfilled_count (cand : List (Option Nat)) : Nat :=
  (cand.filter fun o => o.isNone).length

/-- Number of positions idx > 0 of a candidate where both position idx and
position idx-1 are filled and the two referenced preferences share uid and
week_day, written with the previous entry passed along as in score_go. -/
def adj_go (prefs : List InstructorPref) : Option Nat → List (Option Nat) → Nat
  | _, [] => 0
  | prev, entry :: rest =>
    (match entry, prev with
     | some instructor_idx, some prev_idx =>
       if (prefs.getD instructor_idx dummy_pref).uid = (prefs.getD prev_idx dummy_pref).uid ∧
          (prefs.getD instructor_idx dummy_pref).week_day = (prefs.getD prev_idx dummy_pref).week_day
       then 1 else 0
     | _, _ => 0)
    + adj_go prefs entry rest

/-- Number of rewarded adjacent pairs of a candidate. -/
def adjacent_reward_count (prefs : List InstructorPref) (cand : List (Option Nat)) : Nat :=
  adj_go prefs none cand

/-- scheduler.update_best_session_assignment: score the candidate, then
replace the retained best when score > best_score or when
best_session_assignments is None. -/
def update_best_session_assignment (prefs : List InstructorPref)
    (best_session_assignments : Option (List (Option Nat))) (best_score : Int)
    (candidate_session_assignments : List (Option Nat)) :
    Option (List (Option Nat)) × Int :=
  let score := candidate_score prefs candidate_session_assignments
  if score > best_score ∨ best_session_assignments = none then
    (some candidate_session_assignments, score)
  else (best_session_assignments, best_score)

/-- The loop state of scheduler.scheduler: the retained best candidate
(initially Python None) and its score. -/
structure SearchState where
  best_session_assignments : Option (List (Option Nat))
  best_score : Int
deriving DecidableEq

/-- The initial loop state of scheduler.scheduler: best_score = 0,
best_session_assignments = None. -/
def scheduler_start : SearchState := ⟨none, 0⟩

/-- One epoch of the scheduler.scheduler loop: generate a candidate with the
epoch's shuffled index list and update the retained best. -/
def scheduler_step (sessions : List Session) (prefs : List InstructorPref)
    (replicates : Nat) (st : SearchState) (perm : List Nat) : SearchState :=
  let candidate := calculate_session_assignments sessions prefs replicates perm
  let r := update_best_session_assignment prefs st.best_session_assignments
    st.best_score candidate
  ⟨r.1, r.2⟩

/-- The epoch loop of scheduler.scheduler: epochs iterations from the
initial state, the epoch-e shuffle being perms e.  replicates and
max_attempts are the hyperparameters the source accepts; max_attempts is
never read and replicates is passed through to candidate generation which
ignores it. -/
def scheduler_run (sessions : List Session) (prefs : List InstructorPref)
    (replicates max_attempts : Nat) (perms : Nat → List Nat) (epochs : Nat) :
    SearchState :=
  (List.range epochs).foldl
    (fun st e => scheduler_step sessions prefs replicates st (perms e))
    scheduler_start

/-- Failure cases of scheduler.map_assignments.  NoBestAssignment models the
TypeError raised on enumerate(None) when no best candidate was retained;
UnfilledSession models the TypeError raised when an unfilled (None) entry is
used to index the preference list. -/
inductive ProjError
  | NoBestAssignment
  | UnfilledSession
deriving DecidableEq

/-- One output row of scheduler.map_assignments:
f"{week_day}\t{start} - {end}\t{uid}\t{name}\n". -/
def format_row (s : Session) (ip : InstructorPref) : String :=
  s.week_day ++ "\t" ++ s.start_time_code ++ " - " ++ s.end_time_code ++ "\t"
    ++ ip.uid ++ "\t" ++ ip.name ++ "\n"

/-- The row loop of scheduler.map_assignments over enumerate(assignments):
idx tracks the session position. -/
def map_go (sessions : List Session) (prefs : List InstructorPref) :
    Nat → List (Option Nat) → Except ProjError String
  | _, [] => .ok ""
  | _, none :: _ => .error .UnfilledSession
  | idx, some instructor_idx :: rest =>
    let row := format_row (sessions.getD idx dummy_session)
      (prefs.getD instructor_idx dummy_pref)
    (map_go sessions prefs (idx + 1) rest).map (fun r => row ++ r)

/-- scheduler.map_assignments: projects the retained best candidate to the
output rows; fails when the retained best is Python None (the zero-epoch
case). -/
def map_assignments (sessions : List Session) (prefs : List InstructorPref) :
    Option (List (Option Nat)) → Except ProjError String
  | none => .error .NoBestAssignment
  | some lst => map_go sessions prefs 0 lst

/-- Concrete session used in witnesses: Monday 9:00 AM, slot code "0_2". -/
def session_M9 : Session := ⟨"Monday", "9:00 AM", "10:00 AM", "0_2"⟩

/-- Concrete preference used in witnesses: instructor "I1" on Monday
9:00 AM, slot code "0_2". -/
def pref_I1_M9 : InstructorPref := ⟨"I1", "A", "Monday", "9:00 AM", "10:00 AM", "0_2"⟩

/-- Concrete preference with an empty uid, same slot as session_M9. -/
def pref_empty_uid : InstructorPref := ⟨"", "B", "Monday", "9:00 AM", "10:00 AM", "0_2"⟩


/-- The scoring loop computes 2 per rewarded adjacent pair minus 5 per
unfilled position, for any starting previous entry. -/
theorem score_go_formula (prefs : List InstructorPref) :
    ∀ (cand : List (Option Nat)) (prev : Option Nat),
    score_go prefs prev cand
      = 2 * (adj_go prefs prev cand : Int)
        - 5 * ((cand.filter fun o => o.isNone).length : Int)
  | [], _ => by simp [score_go, adj_go]
  | none :: rest, prev => by
    have ih := score_go_formula prefs rest none
    simp only [score_go, adj_go, List.filter_cons, Option.isNone_none, if_true, ih,
      List.length_cons]
    push_cast
    ring
  | some i :: rest, prev => by
    have ih := score_go_formula prefs rest (some i)
    cases prev with
    | none =>
      simp only [score_go, adj_go, List.filter_cons, Option.isNone_some, if_false, ih]
      push_cast
      ring
    | some p =>
      by_cases h : (prefs.getD i dummy_pref).uid = (prefs.getD p dummy_pref).uid ∧
          (prefs.getD i dummy_pref).week_day = (prefs.getD p dummy_pref).week_day
      · simp only [score_go, adj_go, List.filter_cons, Option.isNone_some, if_false, ih,
          if_pos h]
        push_cast
        ring
      · simp only [score_go, adj_go, List.filter_cons, Option.isNone_some, if_false, ih,
          if_neg h]
        push_cast
        ring

/-- An all-unfilled candidate has no rewarded adjacent pair. -/
theorem adj_go_of_all_none (prefs : List InstructorPref) :
    ∀ (cand : List (Option Nat)) (prev : Option Nat),
    (∀ x ∈ cand, x = none) → adj_go prefs prev cand = 0
  | [], _, _ => by simp [adj_go]
  | c :: rest, prev, h => by
    have hc : c = none := h c (by simp)
    subst hc
    have ih := adj_go_of_all_none prefs rest none (fun x hx => h x (by simp [hx]))
    simp [adj_go, ih]

/-- A successful scan result is a permutation member whose preference has
the session's slot code, a truthy (non-empty) uid, and is not yet consumed. -/
theorem assign_scan_eq_some (prefs : List InstructorPref) (session : Session) :
    ∀ (perm : List Nat) (acc : List (Option Nat)) (idx : Nat),
    assign_scan prefs session perm acc = some idx →
    idx ∈ perm
    ∧ (prefs.getD idx dummy_pref).encoded_start_time_code = session.encoded_start_time_code
    ∧ (prefs.getD idx dummy_pref).uid ≠ ""
    ∧ some idx ∉ acc
  | [], acc, idx => by simp [assign_scan]
  | j :: rest, acc, idx => by
    intro h
    rw [assign_scan] at h
    split at h
    · rename_i hcond
      cases h
      by_cases hcode : (prefs.getD j dummy_pref).encoded_start_time_code
          = session.encoded_start_time_code
      · have huid : (prefs.getD j dummy_pref).uid ≠ "" := by
          have := hcond.1
          rw [try_assign_instructor, if_pos hcode] at this
          simpa [is_truthy] using this
        exact ⟨by simp, hcode, huid, hcond.2⟩
      · exfalso
        have := hcond.1
        rw [try_assign_instructor, if_neg hcode] at this
        simp [is_truthy] at this
    · have ih := assign_scan_eq_some prefs session rest acc idx h
      exact ⟨by simp [ih.1], ih.2⟩

/-- The session loop only appends to the accumulated assignment list. -/
theorem calc_go_prefix (prefs : List InstructorPref) (perm : List Nat) :
    ∀ (sessions : List Session) (acc : List (Option Nat)),
    ∃ t, calc_go prefs perm sessions acc = acc ++ t
  | [], acc => ⟨[], by simp [calc_go]⟩
  | s :: rest, acc => by
    obtain ⟨t, ht⟩ :=
      calc_go_prefix prefs perm rest (acc ++ [assign_scan prefs s perm acc])
    exact ⟨assign_scan prefs s perm acc :: t, by rw [calc_go, ht]; simp⟩

/-- Every filled entry the session loop appends beyond the accumulator comes
from a successful scan for the session at the same offset: it is a member of
the permutation, matches the session's slot code, and has a non-empty uid. -/
theorem calc_go_sound (prefs : List InstructorPref) (perm : List Nat) :
    ∀ (sessions : List Session) (acc : List (Option Nat)) (k idx : Nat),
    (calc_go prefs perm sessions acc)[acc.length + k]? = some (some idx) →
    ∃ s, sessions[k]? = some s
      ∧ idx ∈ perm
      ∧ (prefs.getD idx dummy_pref).encoded_start_time_code = s.encoded_start_time_code
      ∧ (prefs.getD idx dummy_pref).uid ≠ ""
  | [], acc, k, idx => by
    intro h
    rw [calc_go, List.getElem?_eq_none (by omega)] at h
    exact absurd h (by simp)
  | s0 :: rest, acc, k, idx => by
    intro h
    rw [calc_go] at h
    cases k with
    | zero =>
      obtain ⟨t, ht⟩ :=
        calc_go_prefix prefs perm rest (acc ++ [assign_scan prefs s0 perm acc])
      rw [ht, List.append_assoc, Nat.add_zero,
        List.getElem?_append_right (Nat.le_refl _), Nat.sub_self] at h
      simp only [List.cons_append, List.getElem?_cons_zero, Option.some.injEq] at h
      obtain ⟨hmem, hcode, huid, -⟩ :=
        assign_scan_eq_some prefs s0 perm acc idx h
      exact ⟨s0, by simp, hmem, hcode, huid⟩
    | succ k' =>
      have hlen : acc.length + (k' + 1)
          = (acc ++ [assign_scan prefs s0 perm acc]).length + k' := by
        simp
        omega
      rw [hlen] at h
      obtain ⟨s, hs, hrest⟩ :=
        calc_go_sound prefs perm rest (acc ++ [assign_scan prefs s0 perm acc]) k' idx h
      exact ⟨s, by simpa using hs, hrest⟩

/-- The session loop preserves distinctness of the filled entries: a scan
never returns an index already present in the accumulated list. -/
theorem calc_go_nodup (prefs : List InstructorPref) (perm : List Nat) :
    ∀ (sessions : List Session) (acc : List (Option Nat)),
    (acc.filterMap id).Nodup → ((calc_go prefs perm sessions acc).filterMap id).Nodup
  | [], acc => fun h => by rwa [calc_go]
  | s0 :: rest, acc => fun h => by
    rw [calc_go]
    apply calc_go_nodup prefs perm rest
    rw [List.filterMap_append]
    cases ha : assign_scan prefs s0 perm acc with
    | none => simpa using h
    | some idx =>
      have hni : some idx ∉ acc :=
        (assign_scan_eq_some prefs s0 perm acc idx ha).2.2.2
      rw [List.nodup_append]
      refine ⟨h, by simp, ?_⟩
      intro a haf hmem
      simp only [List.filterMap_cons, id, List.filterMap_nil, List.mem_singleton] at hmem
      subst hmem
      have : some a ∈ acc := by
        simpa using (List.mem_filterMap.mp haf)
      exact hni this

/-- Unrolling one epoch of the search loop. -/
theorem scheduler_run_succ (sessions : List Session) (prefs : List InstructorPref)
    (replicates max_attempts : Nat) (perms : Nat → List Nat) (k : Nat) :
    scheduler_run sessions prefs replicates max_attempts perms (k + 1)
      = scheduler_step sessions prefs replicates
          (scheduler_run sessions prefs replicates max_attempts perms k) (perms k) := by
  rw [scheduler_run, scheduler_run, List.range_succ, List.foldl_append]
  rfl

/-- After any epoch the retained best is an actual candidate list, never
None: either the step adopted the candidate, or the previous best (which the
guard shows was not None) is kept. -/
theorem scheduler_step_best_isSome (sessions : List Session)
    (prefs : List InstructorPref) (replicates : Nat) (st : SearchState)
    (perm : List Nat) :
    (scheduler_step sessions prefs replicates st perm).best_session_assignments.isSome := by
  rw [scheduler_step, update_best_session_assignment]
  by_cases h :
      candidate_score prefs (calculate_session_assignments sessions prefs replicates perm)
        > st.best_score
      ∨ st.best_session_assignments = none
  · simp [h]
  · rw [if_neg h]
    push_neg at h
    exact Option.isSome_iff_ne_none.mpr h.2

/-- When the retained best is an actual candidate, a step never lowers the
retained best score. -/
theorem scheduler_step_score_mono (sessions : List Session)
    (prefs : List InstructorPref) (replicates : Nat) (st : SearchState)
    (perm : List Nat) (hb : st.best_session_assignments ≠ none) :
    st.best_score ≤ (scheduler_step sessions prefs replicates st perm).best_score := by
  rw [scheduler_step, update_best_session_assignment]
  by_cases h :
      candidate_score prefs (calculate_session_assignments sessions prefs replicates perm)
        > st.best_score
      ∨ st.best_session_assignments = none
  · rcases h with h | h
    · simp only [if_pos (Or.inl h)]
      exact le_of_lt h
    · exact absurd h hb
  · rw [if_neg h]

/-- From epoch 1 onward the retained best is an actual candidate list. -/
theorem scheduler_run_best_isSome (sessions : List Session)
    (prefs : List InstructorPref) (replicates max_attempts : Nat)
    (perms : Nat → List Nat) (k : Nat) (hk : 1 ≤ k) :
    (scheduler_run sessions prefs replicates max_attempts perms
      k).best_session_assignments.isSome := by
  cases k with
  | zero => exact absurd hk (by simp)
  | succ k' =>
    rw [scheduler_run_succ]
    exact scheduler_step_best_isSome sessions prefs replicates _ (perms k')

/-- Claim C1 counterexample: on epoch 1 with one session and no matching
preference, the candidate [None] scores -5, which does not strictly exceed
the initial best_score 0, yet the search loop replaces the retained best and
best_score with it, because the update also fires when the retained best is
None.  The negative-score candidate does displace the initial no-assignment
baseline. -/
theorem C1_counterexample :
    update_best_session_assignment [] none 0 [none] = (some [none], -5)
    ∧ scheduler_run [session_M9] [] 0 0 (fun _ => []) 1 = ⟨some [none], -5⟩
    ∧ ¬((-5 : Int) > 0) := by decide

/-- Claim C1 (amended): the update replaces the retained best when the
candidate's score strictly exceeds best_score or when no best candidate is
retained yet; an already-established best is displaced only by a strictly
greater score, but the None baseline is displaced unconditionally by the
first candidate, whatever its score. -/
theorem C1_update_policy (prefs : List InstructorPref) (bs : Int)
    (cand b : List (Option Nat)) :
    ((update_best_session_assignment prefs (some b) bs cand).1 ≠ some b →
      candidate_score prefs cand > bs)
    ∧ update_best_session_assignment prefs none bs cand
        = (some cand, candidate_score prefs cand) := by
  constructor
  · intro hne
    by_contra hle
    have hcond : ¬(candidate_score prefs cand > bs ∨ (some b : Option (List (Option Nat))) = none) := by
      push_neg
      exact ⟨not_lt.mp hle, by simp⟩
    rw [update_best_session_assignment] at hne
    rw [if_neg hcond] at hne
    exact hne rfl
  · rw [update_best_session_assignment]
    simp

/-- Claim C1 witness: with best_score -10 and established best [some 0], the
candidate [None] (score -5) displaces it, and the theorem yields the strict
improvement -5 > -10; the second conjunct instantiates the None-baseline
case. -/
theorem C1_witness :
    candidate_score [] [none] > -10
    ∧ update_best_session_assignment [] none (-10) [none]
        = (some [none], candidate_score [] [none]) :=
  ⟨(C1_update_policy [] (-10) [none] [some 0]).1 (by decide),
   (C1_update_policy [] (-10) [none] [some 0]).2⟩

/-- Claim C2 counterexample: with one session and no preferences, best_score
starts at 0 after zero epochs but is -5 after one epoch: the retained
best_score decreases below its initial value on the first epoch, so it is
not non-decreasing starting from 0. -/
theorem C2_counterexample :
    (scheduler_run [session_M9] [] 0 0 (fun _ => []) 0).best_score = 0
    ∧ (scheduler_run [session_M9] [] 0 0 (fun _ => []) 1).best_score = -5
    ∧ ((-5 : Int) < 0) := by decide

/-- Claim C2 (amended): from epoch 1 onward the retained best_score is
non-decreasing; only the transition from the initial value 0 to epoch 1 can
decrease it, because the first candidate unconditionally replaces the None
baseline together with its (possibly negative) score. -/
theorem C2_best_score_monotone (sessions : List Session)
    (prefs : List InstructorPref) (replicates max_attempts : Nat)
    (perms : Nat → List Nat) (k : Nat) (hk : 1 ≤ k) :
    (scheduler_run sessions prefs replicates max_attempts perms k).best_score
      ≤ (scheduler_run sessions prefs replicates max_attempts perms (k + 1)).best_score := by
  rw [scheduler_run_succ]
  apply scheduler_step_score_mono
  exact Option.isSome_iff_ne_none.mp
    (scheduler_run_best_isSome sessions prefs replicates max_attempts perms k hk)

/-- Claim C2 witness: concrete instance of the monotone step from epoch 1 to
epoch 2. -/
theorem C2_witness :
    (scheduler_run [session_M9] [] 0 0 (fun _ => []) 1).best_score
      ≤ (scheduler_run [session_M9] [] 0 0 (fun _ => []) 2).best_score :=
  C2_best_score_monotone [session_M9] [] 0 0 (fun _ => []) 1 (by decide)

/-- Claim C3: the time-slot encoder accepts exactly the 24-hour hours 7
through 19 inclusive.  7:00 AM encodes to hour-offset 0, 7:00 PM succeeds
with hour-offset 12, 6:00 AM and 8:00 PM fail with OutOfRangeTime; and in
general, for any input whose "H:MM Period" shape parses, the encoder fails
with OutOfRangeTime exactly when the 24-hour hour is outside [7, 19]. -/
theorem C3_hour_range :
    remap_time_code_parts "7:00 AM" "Monday" = .ok (0, 0)
    ∧ remap_time_code_parts "7:00 PM" "Monday" = .ok (0, 12)
    ∧ remap_time_code_parts "6:00 AM" "Monday" = .error .OutOfRangeTime
    ∧ remap_time_code_parts "8:00 PM" "Monday" = .error .OutOfRangeTime
    ∧ ∀ (t w : String) (hs p : List Char) (h : Nat),
        py_split ' ' t.data = [hs, p] →
        py_int ((py_split ':' hs).headD []) = some h →
        (remap_time_code_parts t w = .error .OutOfRangeTime
          ↔ (to_24_hour h (String.mk p) < 7 ∨ 19 < to_24_hour h (String.mk p))) := by
  refine ⟨by decide, by decide, by decide, by decide, ?_⟩
  intro t w hs p h h1 h2
  rw [remap_time_code_parts, h1]
  simp only [h2]
  by_cases hr : to_24_hour h (String.mk p) < 7 ∨ to_24_hour h (String.mk p) > 19
  · rw [if_pos hr]
    simpa using hr
  · rw [if_neg hr]
    by_cases hd : days_mapping (String.mk (py_strip w.data)) = -1
    · rw [if_pos hd]
      constructor
      · intro hcontra
        exact absurd hcontra (by simp)
      · intro hcontra
        exact absurd hcontra (by simpa using hr)
    · rw [if_neg hd]
      constructor
      · intro hcontra
        exact absurd hcontra (by simp)
      · intro hcontra
        exact absurd hcontra (by simpa using hr)

/-- Claim C3 witness: the general boundary characterization applied to
"9:00 PM" (24-hour hour 21, out of range). -/
theorem C3_witness :
    remap_time_code_parts "9:00 PM" "Tuesday" = .error .OutOfRangeTime
      ↔ (to_24_hour 9 (String.mk ['P', 'M']) < 7
          ∨ 19 < to_24_hour 9 (String.mk ['P', 'M'])) :=
  C3_hour_range.2.2.2.2 "9:00 PM" "Tuesday" ['9', ':', '0', '0'] ['P', 'M'] 9
    (by decide) (by decide)

/-- Claim C4 counterexample: encoding Monday 7:00 PM succeeds with
hour-offset 12, which is outside the claimed range 0..11. -/
theorem C4_counterexample :
    remap_time_code_parts "7:00 PM" "Monday" = .ok (0, 12) ∧ ¬(12 ≤ 11) := by decide

/-- Claim C4 (amended): for every (weekday, clock-time) input on which
encoding succeeds, the resulting slot code's hour-offset component lies in
the range 0..12 (7:00 AM through 7:00 PM start hours). -/
theorem C4_hour_offset_range (t w : String) (d : Int) (h : Nat)
    (hok : remap_time_code_parts t w = .ok (d, h)) : h ≤ 12 := by
  rw [remap_time_code_parts] at hok
  split at hok
  · rename_i hourChars periodChars
    split at hok
    · exact absurd hok (by simp)
    · rename_i h0 hparse
      dsimp only at hok
      split at hok
      · exact absurd hok (by simp)
      · rename_i hrange
        split at hok
        · exact absurd hok (by simp)
        · simp only [Except.ok.injEq, Prod.mk.injEq] at hok
          push_neg at hrange
          omega
  · exact absurd hok (by simp)

/-- Claim C4 witness: Monday 9:00 AM succeeds with hour-offset 2, within
0..12. -/
theorem C4_witness :
    remap_time_code_parts "9:00 AM" "Monday" = .ok (0, 2) ∧ 2 ≤ 12 :=
  ⟨by decide, C4_hour_offset_range "9:00 AM" "Monday" 0 2 (by decide)⟩

/-- Claim C5: the computed score equals -5 times the number of unfilled
positions plus 2 times the number of positions idx > 0 where both idx and
idx-1 are filled and the referenced preferences share instructor uid and
week day; an all-unfilled candidate scores -5 times the session count, and a
fully filled candidate is never penalized (its score is non-negative). -/
theorem C5_score_formula (prefs : List InstructorPref) (cand : List (Option Nat)) :
    candidate_score prefs cand
      = 2 * (adjacent_reward_count prefs cand : Int) - 5 * (unfilled_count cand : Int)
    ∧ ((∀ x ∈ cand, x = none) →
        candidate_score prefs cand = -5 * (cand.length : Int))
    ∧ ((∀ x ∈ cand, x.isSome) → 0 ≤ candidate_score prefs cand) := by
  have hf := score_go_formula prefs cand none
  refine ⟨hf, ?_, ?_⟩
  · intro h
    have hadj := adj_go_of_all_none prefs cand none h
    have hfil : (cand.filter fun o => o.isNone) = cand :=
      List.filter_eq_self.mpr (by intro a ha; simp [h a ha])
    rw [candidate_score, hf, hadj, hfil]
    push_cast
    ring
  · intro h
    have hfil : (cand.filter fun o => o.isNone) = [] := by
      rw [List.filter_eq_nil_iff]
      intro a ha
      simp [Option.isNone_iff_eq_none]
      intro hn
      exact absurd (h a ha) (by simp [hn])
    rw [candidate_score, hf, hfil]
    simp

/-- Claim C5 witness: an all-unfilled two-session candidate scores
-5 * 2 = -10, and a fully filled one-session candidate is not penalized. -/
theorem C5_witness :
    candidate_score [] [none, none] = -5 * (([none, none] : List (Option Nat)).length : Int)
    ∧ 0 ≤ candidate_score [] [some 0] :=
  ⟨(C5_score_formula [] [none, none]).2.1 (by decide),
   (C5_score_formula [] [some 0]).2.2 (by decide)⟩

/-- Claim C6: every filled entry of a generated candidate references a
preference whose encoded slot code is exactly equal to the slot code of the
session at the same position; preferences with a differing slot code are
never assigned. -/
theorem C6_slot_exact_match (sessions : List Session) (prefs : List InstructorPref)
    (replicates : Nat) (perm : List Nat) (hperm : ∀ i ∈ perm, i < prefs.length)
    (k idx : Nat)
    (h : (calculate_session_assignments sessions prefs replicates perm)[k]?
          = some (some idx)) :
    ∃ (hi : idx < prefs.length) (s : Session),
      sessions[k]? = some s
      ∧ (prefs.get ⟨idx, hi⟩).encoded_start_time_code = s.encoded_start_time_code := by
  have hk : ([] : List (Option Nat)).length + k = k := by simp
  rw [calculate_session_assignments] at h
  rw [← hk] at h
  obtain ⟨s, hs, hmem, hcode, -⟩ := calc_go_sound prefs perm sessions [] k idx h
  have hi : idx < prefs.length := hperm idx hmem
  refine ⟨hi, s, hs, ?_⟩
  rw [List.get_eq_getElem, ← List.getD_eq_getElem prefs dummy_pref hi]
  exact hcode

/-- Claim C6 witness: one Monday-9AM session, one matching preference,
identity permutation; the produced candidate fills the session with the
preference and their slot codes agree. -/
theorem C6_witness :
    ∃ (hi : 0 < ([pref_I1_M9] : List InstructorPref).length) (s : Session),
      ([session_M9] : List Session)[0]? = some s
      ∧ (([pref_I1_M9] : List InstructorPref).get ⟨0, hi⟩).encoded_start_time_code
          = s.encoded_start_time_code :=
  C6_slot_exact_match [session_M9] [pref_I1_M9] 5 [0] (by decide) 0 0 (by decide)

/-- Claim C7: within a single generated candidate the filled entries are
pairwise distinct preference indices; consumed tracking starts from the
empty accumulator on every call, so nothing carries over between calls. -/
theorem C7_no_index_reuse (sessions : List Session) (prefs : List InstructorPref)
    (replicates : Nat) (perm : List Nat) :
    ((calculate_session_assignments sessions prefs replicates perm).filterMap id).Nodup :=
  calc_go_nodup prefs perm sessions [] (by simp)

/-- Claim C8: the search is invariant in the replicates and max_attempts
hyperparameters: with the sessions, the preferences and the shuffle sequence
fixed, the final retained state and every per-epoch generated candidate are
identical for any two choices of these hyperparameters. -/
theorem C8_hyperparameters_unused (sessions : List Session)
    (prefs : List InstructorPref) (perms : Nat → List Nat) (epochs : Nat)
    (r1 m1 r2 m2 : Nat) :
    scheduler_run sessions prefs r1 m1 perms epochs
      = scheduler_run sessions prefs r2 m2 perms epochs
    ∧ ∀ n, calculate_session_assignments sessions prefs r1 (perms n)
        = calculate_session_assignments sessions prefs r2 (perms n) :=
  ⟨rfl, fun _ => rfl⟩

/-- Claim C9: with zero epochs the loop retains no best candidate (None),
and projecting the best assignment fails with NoBestAssignment. -/
theorem C9_zero_epochs_projection_fails (sessions : List Session)
    (prefs : List InstructorPref) (replicates max_attempts : Nat)
    (perms : Nat → List Nat) :
    (scheduler_run sessions prefs replicates max_attempts perms 0).best_session_assignments
      = none
    ∧ map_assignments sessions prefs
        (scheduler_run sessions prefs replicates max_attempts perms
          0).best_session_assignments
      = .error .NoBestAssignment :=
  ⟨rfl, rfl⟩

/-- Claim C10: a preference whose uid is the empty string is never assigned
by the candidate generator (the truthiness test on the returned uid rejects
it); concretely, with a single session and a single empty-uid preference
whose slot code equals the session's, the candidate records the session
unfilled. -/
theorem C10_empty_uid_never_assigned (sessions : List Session)
    (prefs : List InstructorPref) (replicates : Nat) (perm : List Nat)
    (k idx : Nat) :
    ((calculate_session_assignments sessions prefs replicates perm)[k]?
        = some (some idx) → (prefs.getD idx dummy_pref).uid ≠ "")
    ∧ pref_empty_uid.encoded_start_time_code = session_M9.encoded_start_time_code
    ∧ pref_empty_uid.uid = ""
    ∧ calculate_session_assignments [session_M9] [pref_empty_uid] replicates [0]
        = [none] := by
  refine ⟨?_, rfl, rfl, rfl⟩
  intro h
  have hk : ([] : List (Option Nat)).length + k = k := by simp
  rw [calculate_session_assignments, ← hk] at h
  obtain ⟨-, -, -, -, huid⟩ := calc_go_sound prefs perm sessions [] k idx h
  exact huid

/-- Claim C10 witness: a filled entry produced by the generator references a
preference with a non-empty uid. -/
theorem C10_witness : (([pref_I1_M9] : List InstructorPref).getD 0 dummy_pref).uid ≠ "" :=
  (C10_empty_uid_never_assigned [session_M9] [pref_I1_M9] 5 [0] 0 0).1 (by decide)
